import Mathlib

/-! # Transport layer of the sccache fork

Shallow embedding of the transport layer of the sccache fork
(`src/client.rs` and `src/net.rs`): the `SocketAddr` variant address type
with its textual parse/format, the client-side `ServerConnection::request`
exchange, the retrying connector `connect_with_retry`, and the `Acceptor`
implementations.  Strings and wire data are modelled as lists of byte
values (`Nat` below 256); fallible operations return `Except`.
-/

deriving instance DecidableEq for Except

namespace Sccache

/-- Bytes are modelled as natural numbers; all values of interest are below 256. -/
abbrev Byte := Nat

/-! ## Error model

`std::io::ErrorKind` is modelled by the kinds the transport layer actually
produces or distinguishes; `protobuf::ProtobufError` by its two relevant
constructors (`IoError` wrapping an I/O error, `WireError` for
decode/framing failures inside the protobuf library). -/

/-- Model of the `std::io::ErrorKind` values relevant to this layer. -/
inductive IoErrorKind where
  | unexpectedEof
  | brokenPipe
  | connectionRefused
  | timedOut
  | otherKind
deriving DecidableEq, Repr

/-- Model of `protobuf::WireError`: the decode-side failures of the protobuf
library (truncated varint, malformed message bytes, and so on). -/
inductive WireError where
  | unexpectedEof
  | incorrectVarint
  | incorrectTag
  | otherWire
deriving DecidableEq, Repr

/-- Model of `protobuf::ProtobufError`: either a wrapped I/O error or a
wire-format (decode) error.  The two constructors are the two error kinds the
spec distinguishes. -/
inductive ProtobufError where
  | IoError (k : IoErrorKind)
  | WireError (w : WireError)
deriving DecidableEq, Repr

/-! ## Varint coding

`write_length_delimited_to_writer` emits `varint(len) ++ bytes`;
`CodedInputStream::read_raw_varint32` reads a base-128 varint of at most
10 bytes and truncates the value to 32 bits.  Both are external protobuf
library operations, modelled from the documented wire format of that library. -/

/-- Base-128 varint encoding, fuelled for structural recursion: each step
emits seven bits.  Ten steps cover every 64-bit length the library can be
asked to write. -/
def varintEncodeAux : Nat → Nat → List Byte
  | 0, n => [n]
  | fuel + 1, n =>
    if n < 128 then [n]
    else (n % 128 + 128) :: varintEncodeAux fuel (n / 128)

/-- Base-128 varint encoding of a natural number (protobuf length prefix).
The fuel of 10 bytes is exact for every value below `2 ^ 70`, which covers
every length the source (a `usize`) can hold. -/
def varintEncode (n : Nat) : List Byte := varintEncodeAux 10 n

/-- Loop of `read_raw_varint64`: `fuel` counts the at most 10 bytes consumed,
`shift` the current bit position, `acc` the accumulated value.  Running out of
input mid-varint is a wire error; a varint longer than 10 bytes is rejected. -/
def readVarintLoop : Nat → Nat → Nat → List Byte → Except ProtobufError (Nat × List Byte)
  | 0, _, _, _ => .error (.WireError .incorrectVarint)
  | _ + 1, _, _, [] => .error (.WireError .unexpectedEof)
  | fuel + 1, shift, acc, b :: rest =>
    if b < 128 then .ok (acc + b * 2 ^ shift, rest)
    else readVarintLoop fuel (shift + 7) (acc + b % 128 * 2 ^ shift) rest

/-- Model of `CodedInputStream::read_raw_varint32`: read a varint of at most
10 bytes and truncate the value to 32 bits (the library reads a 64-bit varint
and casts it to `u32`).  Returns the value and the unconsumed input. -/
def read_raw_varint32 (bs : List Byte) : Except ProtobufError (Nat × List Byte) :=
  (readVarintLoop 10 0 0 bs).map (fun vr => (vr.1 % 2 ^ 32, vr.2))

/-! ## ASCII escaping

`Display` for the abstract variant calls `<[u8]>::escape_ascii` from the
Rust standard library; `parse` calls `crate::util::ascii_unescape_default`,
whose source is not part of this repository slice. -/

/-- Model of `u8::escape_ascii` (the byte form of `ascii::escape_default`):
tab, carriage return, newline, backslash, single and double quote get a
two-character escape, printable ASCII maps to itself, and every other byte
becomes a four-character hexadecimal escape. -/
def escapeByte (b : Byte) : List Byte :=
  if b = 9 then [92, 116]
  else if b = 13 then [92, 114]
  else if b = 10 then [92, 110]
  else if b = 92 then [92, 92]
  else if b = 39 then [92, 39]
  else if b = 34 then [92, 34]
  else if 32 ≤ b ∧ b ≤ 126 then [b]
  else [92, 120, hexDigit (b / 16), hexDigit (b % 16)]
where
  /-- Lowercase hexadecimal digit of a value below 16. -/
  hexDigit (n : Nat) : Byte := if n < 10 then 48 + n else 87 + n

/-- Model of `<[u8]>::escape_ascii`: escape every byte in sequence. -/
def escapeAscii (bs : List Byte) : List Byte :=
  bs.foldr (fun b acc => escapeByte b ++ acc) []

/-- Value of an ASCII hexadecimal digit byte. -/
def hexVal (b : Byte) : Nat :=
  if 48 ≤ b ∧ b ≤ 57 then b - 48
  else if 97 ≤ b ∧ b ≤ 102 then b - 87
  else if 65 ≤ b ∧ b ≤ 70 then b - 55
  else 0

/-- Modelled from the spec: `crate::util::ascii_unescape_default`, whose
source file (`src/util.rs`) is not in this repository slice.  The spec says
abstract names are "escaped on format and unescaped on parse (byte-for-byte
round trip through the escaped textual form)", so this is the inverse of the
per-byte `escape_default` convention: the two-character escapes for tab,
carriage return, newline, backslash and the quotes, the four-character
hexadecimal escapes, and every other byte unchanged. -/
def asciiUnescapeDefault : List Byte → List Byte
  | [] => []
  | 92 :: 116 :: rest => 9 :: asciiUnescapeDefault rest
  | 92 :: 114 :: rest => 13 :: asciiUnescapeDefault rest
  | 92 :: 110 :: rest => 10 :: asciiUnescapeDefault rest
  | 92 :: 92 :: rest => 92 :: asciiUnescapeDefault rest
  | 92 :: 39 :: rest => 39 :: asciiUnescapeDefault rest
  | 92 :: 34 :: rest => 34 :: asciiUnescapeDefault rest
  | 92 :: 120 :: h :: l :: rest => (hexVal h * 16 + hexVal l) :: asciiUnescapeDefault rest
  | b :: rest => b :: asciiUnescapeDefault rest

/-! ## Network addresses

The `Net` variant wraps `std::net::SocketAddr`, an external standard-library
type.  Its textual form and parser are modelled for the IPv4 shape
`a.b.c.d:port` that the repository uses (`connect_to_server` dials
`127.0.0.1:port`): four decimal octets joined by dots, a colon, and a decimal
port, with no leading zeros and no trailing input. -/

/-- Model of `std::net::SocketAddr` in its IPv4 form: four octets and a port. -/
structure NetAddr where
  a : Nat
  b : Nat
  c : Nat
  d : Nat
  port : Nat
deriving DecidableEq, Repr

/-- Decimal printing, fuelled for structural recursion: each step peels one
digit. -/
def natToDecAux : Nat → Nat → List Byte
  | 0, n => [48 + n]
  | fuel + 1, n =>
    if n < 10 then [48 + n]
    else natToDecAux fuel (n / 10) ++ [48 + n % 10]

/-- Decimal digits of a natural number, most significant first.  The fuel of
20 digits is exact for every value below `10 ^ 21`, which covers the octet
(`u8`) and port (`u16`) values the source formats. -/
def natToDec (n : Nat) : List Byte := natToDecAux 20 n

/-- Model of the `Display` form of an IPv4 `std::net::SocketAddr`:
`a.b.c.d:port`. -/
def netFormat (n : NetAddr) : List Byte :=
  natToDec n.a ++ [46] ++ natToDec n.b ++ [46] ++ natToDec n.c ++ [46] ++
    natToDec n.d ++ [58] ++ natToDec n.port

/-- Read a maximal run of decimal digit bytes: returns the value, the number
of digits consumed, and the rest of the input. -/
def parseDec : List Byte → Nat → Nat → Nat × Nat × List Byte
  | [], acc, cnt => (acc, cnt, [])
  | b :: rest, acc, cnt =>
    if 48 ≤ b ∧ b ≤ 57 then parseDec rest (acc * 10 + (b - 48)) (cnt + 1)
    else (acc, cnt, b :: rest)

/-- Parse one IPv4 octet: one to three decimal digits, value at most 255, no
leading zero on a multi-digit run. -/
def parseOctet (bs : List Byte) : Option (Nat × List Byte) :=
  match parseDec bs 0 0 with
  | (v, cnt, rest) =>
    if cnt = 0 ∨ cnt > 3 ∨ v > 255 then none
    else if cnt > 1 ∧ bs.head? = some 48 then none
    else some (v, rest)

/-- Model of `str::parse::<std::net::SocketAddr>` restricted to the IPv4
textual form: `a.b.c.d:port` with nothing left over. -/
def netParse (bs : List Byte) : Option NetAddr := do
  let (a, r1) ← parseOctet bs
  match r1 with
  | 46 :: r1tail =>
    let (b, r2) ← parseOctet r1tail
    match r2 with
    | 46 :: r2tail =>
      let (c, r3) ← parseOctet r2tail
      match r3 with
      | 46 :: r3tail =>
        let (d, r4) ← parseOctet r3tail
        match r4 with
        | 58 :: r4tail =>
          match parseDec r4tail 0 0 with
          | (p, cnt, rest) =>
            if cnt = 0 ∨ cnt > 5 ∨ p > 65535 ∨ rest ≠ [] then none
            else if cnt > 1 ∧ r4tail.head? = some 48 then none
            else some ⟨a, b, c, d, p⟩
        | _ => none
      | _ => none
    | _ => none
  | _ => none

/-! ## The Address type -/

/-- The `SocketAddr` enum of `src/net.rs`: a network address, a path-domain
socket (the bytes of the path), or a kernel-abstract-domain name (arbitrary
bytes). -/
inductive SocketAddr where
  | Net (addr : NetAddr)
  | Unix (path : List Byte)
  | UnixAbstract (name : List Byte)
deriving DecidableEq, Repr

/-- The `fmt::Display` implementation for `SocketAddr`: the network address
prints in its standard form, a path prints as itself (`Path::display` is the
identity on paths built from valid text), and an abstract name prints in its
`escape_ascii` form. -/
def SocketAddr.format : SocketAddr → List Byte
  | .Net addr => netFormat addr
  | .Unix p => p
  | .UnixAbstract p => escapeAscii p

/-- The function `SocketAddr::parse` from `src/net.rs`: if the text starts with the NUL
byte, unescape it and return the abstract variant; otherwise if it contains a
colon and parses as a network address, return the `Net` variant; otherwise
fall back to a path-domain address holding the text. -/
def SocketAddr.parse (s : List Byte) : SocketAddr :=
  if s.head? = some 0 then .UnixAbstract (asciiUnescapeDefault s)
  else if s.contains 58 then
    match netParse s with
    | some addr => .Net addr
    | none => .Unix s
  else .Unix s

/-! ## The client-side request/response exchange

`ServerConnection::request` in `src/client.rs` runs over a `TcpStream` and
the protobuf library.  The observable interaction is modelled by an
environment giving the outcome of each external effect in program order: the
two `try_clone` calls, the buffered length-delimited write, and the byte
stream the peer sends before closing.  The exchange is recorded as an event
trace together with the bytes written and the result of the call. -/

/-- Outcomes of the external effects `ServerConnection::request` performs, in
program order: whether each `try_clone` fails (`some` carries the I/O error),
whether `write_length_delimited_to_writer` fails, and the bytes the peer
sends on the stream before closing it. -/
structure Env where
  clone1 : Option IoErrorKind
  writeErr : Option IoErrorKind
  clone2 : Option IoErrorKind
  input : List Byte
deriving DecidableEq, Repr

/-- Events of one `request` call: a `try_clone` attempt (with its success),
the length-delimited write, the varint length-prefix read, the receive-buffer
allocation of a given size, the exact read of a given size, and the decode of
the response bytes. -/
inductive Event where
  | tryClone (ok : Bool)
  | writeFrame
  | readLen
  | allocBuf (n : Nat)
  | readExactEv (n : Nat)
  | decodeResp
deriving DecidableEq, Repr

/-- Model of `std::io::Read::read_exact` on a stream whose remaining bytes
are `bs`: succeed with exactly `n` bytes and the unconsumed rest, or fail
with `UnexpectedEof` when the stream closes before the buffer is full. -/
def read_exact (n : Nat) (bs : List Byte) : Except IoErrorKind (List Byte × List Byte) :=
  if n ≤ bs.length then .ok (bs.take n, bs.drop n) else .error .unexpectedEof

/-- What one call to `ServerConnection::request` did: the event trace, the
bytes written to the stream, and the returned result. -/
structure ReqOutcome (Resp : Type) where
  trace : List Event
  written : List Byte
  result : Except ProtobufError Resp
deriving DecidableEq, Repr

/-- The method `ServerConnection::request` from `src/client.rs`, parametric in the
serialized request bytes and in the external `parse_from_bytes` decoder
(whose failures are wire errors).  Step by step as in the source: clone the
stream (wrapping a clone failure as `IoError`), write the request
length-delimited through a buffered writer, clone again, read a varint
length prefix with `read_raw_varint32`, allocate a buffer of exactly that
many bytes, `read_exact` into it (wrapping an I/O failure as `IoError`), and
decode the buffer; the first failing step aborts the call with its error. -/
def request {Resp : Type} (decode : List Byte → Except WireError Resp)
    (env : Env) (reqBytes : List Byte) : ReqOutcome Resp :=
  match env.clone1 with
  | some e => ⟨[.tryClone false], [], .error (.IoError e)⟩
  | none =>
    match env.writeErr with
    | some e => ⟨[.tryClone true, .writeFrame], [], .error (.IoError e)⟩
    | none =>
      let written := varintEncode reqBytes.length ++ reqBytes
      match env.clone2 with
      | some e => ⟨[.tryClone true, .writeFrame, .tryClone false], written, .error (.IoError e)⟩
      | none =>
        match read_raw_varint32 env.input with
        | .error e =>
          ⟨[.tryClone true, .writeFrame, .tryClone true, .readLen], written, .error e⟩
        | .ok (len, rest) =>
          match read_exact len rest with
          | .error e =>
            ⟨[.tryClone true, .writeFrame, .tryClone true, .readLen, .allocBuf len,
                .readExactEv len], written, .error (.IoError e)⟩
          | .ok (buf, _) =>
            ⟨[.tryClone true, .writeFrame, .tryClone true, .readLen, .allocBuf len,
                .readExactEv len, .decodeResp], written,
              (decode buf).mapError ProtobufError.WireError⟩

/-- A `ServerConnection` owns exactly one stream handle; the stream is
abstract (`σ`). -/
structure ServerConnection (σ : Type) where
  stream : σ

/-- The method `request` viewed with its receiver threaded through: the source never
assigns to `self.stream`, so the connection state passes through unchanged
next to the outcome of the exchange. -/
def requestConn {σ Resp : Type} (decode : List Byte → Except WireError Resp)
    (conn : ServerConnection σ) (env : Env) (reqBytes : List Byte) :
    ServerConnection σ × ReqOutcome Resp :=
  (conn, request decode env reqBytes)

/-- Whether an event is a successful `try_clone`, i.e. the creation of a
transient clone handle. -/
def isCloneOk : Event → Bool
  | .tryClone true => true
  | _ => false

/-- Number of clone handles a trace created: its successful `try_clone`
events. -/
def cloneSuccesses (tr : List Event) : Nat :=
  (tr.filter isCloneOk).length

/-- A trivial decoder used to instantiate `request` at concrete inputs: the
response is the payload itself. -/
def decodeId (bs : List Byte) : Except WireError (List Byte) := .ok bs

/-! ## Connection establishment with retry

`connect_with_retry` calls the external `retry` crate as
`retry(10, 1, || connect_to_server(port), |res| res.is_ok())`: call the
closure, return its value once the predicate holds, otherwise sleep the
fixed delay and try again, giving up after the fixed number of tries.  The
outcome of the i-th connect attempt is an oracle `f i`; the model counts the
attempts made and the sleeps taken. -/

/-- The attempt budget passed to `retry` in `connect_with_retry`. -/
def retryTries : Nat := 10

/-- The inter-attempt delay (in the time unit of the source) passed to `retry`. -/
def retryDelay : Nat := 1

/-- What a retry loop did: attempts made, sleeps taken (each of
`retryDelay` units), and the value the predicate accepted if any attempt
satisfied it. -/
structure RetryOut (A : Type) where
  attempts : Nat
  sleeps : Nat
  value : Option A
deriving DecidableEq, Repr

/-- The loop of the external `retry(tries, wait, value_fn, predicate)`: run
the attempt at index `i`; a value the predicate accepts returns at once;
otherwise, if tries remain, sleep once and continue with the next index. -/
def retryLoop {A : Type} (p : A → Bool) (f : Nat → A) : Nat → Nat → RetryOut A
  | 0, _ => ⟨0, 0, none⟩
  | fuel + 1, i =>
    if p (f i) then ⟨1, 0, some (f i)⟩
    else if fuel = 0 then ⟨1, 0, none⟩
    else
      let out := retryLoop p f fuel (i + 1)
      ⟨out.attempts + 1, out.sleeps + 1, out.value⟩

/-- The function `connect_with_retry` from `src/client.rs`: run the external retry loop
with the fixed budget and the is-ok predicate; `Ok(Ok(conn))` yields the
connection, anything else becomes the single dedicated timed-out error (the
per-attempt errors are dropped). -/
def connect_with_retry {A : Type} (f : Nat → Except IoErrorKind A) :
    RetryOut (Except IoErrorKind A) × Except IoErrorKind A :=
  let out := retryLoop Except.isOk f retryTries 0
  (out, match out.value with
        | some (.ok conn) => .ok conn
        | _ => .error .timedOut)

/-! ## Acceptors

Each `Acceptor` implementation wraps the native accept primitive of its listener,
which yields a socket together with the address of the peer; the implementation
keeps the socket and discards the address.  The native outcome is the
input of the model. -/

/-- The impl of `Acceptor::accept` for `net::TcpListener`: keep the socket of
the pair the native accept yields — keep the socket, drop the peer address, propagate errors. -/
def tcpAccept {S P : Type} (native : Except IoErrorKind (S × P)) : Except IoErrorKind S :=
  native.bind (fun sp => .ok sp.1)

/-- The impl of `Acceptor::accept` for `net::UnixListener`: same shape as the TCP one. -/
def unixAccept {S P : Type} (native : Except IoErrorKind (S × P)) : Except IoErrorKind S :=
  native.bind (fun sp => .ok sp.1)

/-- Model of `std::os::unix::net::SocketAddr` as `local_addr` observes it: a
filesystem pathname, an abstract name, or neither (an unnamed socket). -/
inductive UnixSockAddr where
  | pathname (p : List Byte)
  | abstractName (n : List Byte)
  | unnamed
deriving DecidableEq, Repr

/-- The impl of `Acceptor::local_addr` for `net::UnixListener`: propagate a native
failure; otherwise a pathname becomes the `Unix` variant, an abstract name
the `UnixAbstract` variant, and an unnamed socket falls through to
`SocketAddr::Unix(PathBuf::new())`, the empty path. -/
def unixLocalAddr (native : Except IoErrorKind UnixSockAddr) :
    Except IoErrorKind SocketAddr :=
  match native with
  | .error e => .error e
  | .ok u =>
    match u with
    | .pathname p => .ok (.Unix p)
    | .abstractName n => .ok (.UnixAbstract n)
    | .unnamed => .ok (.Unix [])

/-- A decoder that rejects every payload, used to instantiate `request` at
concrete inputs exercising the decode-failure path. -/
def decodeFail (_ : List Byte) : Except WireError (List Byte) := .error .incorrectTag

/-- A connect oracle that fails three times and then succeeds. -/
def fOk : Nat → Except IoErrorKind Nat :=
  fun i => if i < 3 then .error .connectionRefused else .ok 42

/-- A connect oracle that always fails. -/
def fBad : Nat → Except IoErrorKind Nat := fun _ => .error .connectionRefused

/-! ## Theorems about the claims -/

/-- Claim C3: `SocketAddr::parse` is total — for every input string,
including the empty string and strings with embedded colons that are not
valid network addresses, it returns some `SocketAddr`, and whenever neither
the abstract-marker branch nor the network branch applies, it falls back to
a path-domain address holding the text itself. -/
theorem parse_total (s : List Byte) :
    (s.head? = some 0 ∧ SocketAddr.parse s = .UnixAbstract (asciiUnescapeDefault s))
    ∨ (∃ n, netParse s = some n ∧ SocketAddr.parse s = .Net n)
    ∨ SocketAddr.parse s = .Unix s := by
  by_cases h0 : s.head? = some 0
  · exact Or.inl ⟨h0, by simp [SocketAddr.parse, h0]⟩
  · by_cases hm : (58 : Byte) ∈ s
    · cases hn : netParse s with
      | some n => exact Or.inr (Or.inl ⟨n, rfl, by simp [SocketAddr.parse, h0, hm, hn]⟩)
      | none => exact Or.inr (Or.inr (by simp [SocketAddr.parse, h0, hm, hn]))
    · exact Or.inr (Or.inr (by simp [SocketAddr.parse, h0, hm]))

/-- Claim C4: `SocketAddr::parse` applies the disambiguation order — a
leading NUL byte yields the kernel-abstract variant of the unescaped bytes;
otherwise a text containing a colon that parses as a network address yields
the `Net` variant; otherwise the text becomes a path-domain address. -/
theorem parse_disambiguation (s : List Byte) :
    (s.head? = some 0 → SocketAddr.parse s = .UnixAbstract (asciiUnescapeDefault s))
    ∧ (s.head? ≠ some 0 → s.contains 58 = true → ∀ n, netParse s = some n →
        SocketAddr.parse s = .Net n)
    ∧ (s.head? ≠ some 0 → (s.contains 58 = false ∨ netParse s = none) →
        SocketAddr.parse s = .Unix s) := by
  refine ⟨fun h0 => by simp [SocketAddr.parse, h0], ?_, ?_⟩
  · intro h0 hc n hn
    have hm : (58 : Byte) ∈ s := by simpa using hc
    simp [SocketAddr.parse, h0, hm, hn]
  · intro h0 hrest
    rcases hrest with hc | hn
    · have hm : ¬ (58 : Byte) ∈ s := by simpa using hc
      simp [SocketAddr.parse, h0, hm]
    · by_cases hm : (58 : Byte) ∈ s <;> simp [SocketAddr.parse, h0, hm, hn]

/-- Witness for C4: the three branches at concrete inputs — the text
`"\x00a"` (bytes `[0, 97]`), the formatted network address `127.0.0.1:80`,
and the text `"a:b"` which contains a colon but is no network address. -/
theorem parse_disambiguation_witness :
    SocketAddr.parse [0, 97] = .UnixAbstract (asciiUnescapeDefault [0, 97])
    ∧ SocketAddr.parse (netFormat ⟨127, 0, 0, 1, 80⟩) = .Net ⟨127, 0, 0, 1, 80⟩
    ∧ SocketAddr.parse [97, 58, 98] = .Unix [97, 58, 98] :=
  ⟨(parse_disambiguation [0, 97]).1 (by decide),
   (parse_disambiguation (netFormat ⟨127, 0, 0, 1, 80⟩)).2.1 (by decide) (by decide)
     ⟨127, 0, 0, 1, 80⟩ (by decide),
   (parse_disambiguation [97, 58, 98]).2.2 (by decide) (Or.inr (by decide))⟩

/-- Claim C2 fails on the code: formatting a kernel-abstract address prints
only its `escape_ascii` text (printable ASCII, never a leading NUL byte), so
parsing the formatted text never reaches the abstract branch and returns a
path-domain address instead.  At the abstract name `b"foo"` the round trip
yields `Unix(b"foo")`, not the original variant. -/
theorem abstract_roundtrip_fails :
    SocketAddr.parse (SocketAddr.format (.UnixAbstract [102, 111, 111]))
      = .Unix [102, 111, 111]
    ∧ SocketAddr.parse (SocketAddr.format (.UnixAbstract [102, 111, 111]))
      ≠ .UnixAbstract [102, 111, 111] := by
  decide

/-- Claim C1: `ServerConnection::request` performs the exchange in order —
first clone, length-delimited buffered write of the request, second clone,
varint length-prefix read, allocation of a buffer of exactly that many
bytes, exact read of that many bytes, decode of the buffer as the response —
and any failure at any step fails the whole call with the error of that step. -/
theorem request_exchange {Resp : Type} (decode : List Byte → Except WireError Resp)
    (env : Env) (req : List Byte) :
    (env.clone1 = none → env.writeErr = none → env.clone2 = none →
      ∀ len rest, read_raw_varint32 env.input = .ok (len, rest) → len ≤ rest.length →
        (request decode env req).written = varintEncode req.length ++ req
        ∧ (request decode env req).result
            = (decode (rest.take len)).mapError ProtobufError.WireError
        ∧ (request decode env req).trace
            = [.tryClone true, .writeFrame, .tryClone true, .readLen,
               .allocBuf len, .readExactEv len, .decodeResp]
        ∧ (rest.take len).length = len)
    ∧ (∀ e, env.clone1 = some e →
        (request decode env req).result = .error (.IoError e))
    ∧ (env.clone1 = none → ∀ e, env.writeErr = some e →
        (request decode env req).result = .error (.IoError e))
    ∧ (env.clone1 = none → env.writeErr = none → ∀ e, env.clone2 = some e →
        (request decode env req).result = .error (.IoError e))
    ∧ (env.clone1 = none → env.writeErr = none → env.clone2 = none →
        ∀ e, read_raw_varint32 env.input = .error e →
          (request decode env req).result = .error e)
    ∧ (env.clone1 = none → env.writeErr = none → env.clone2 = none →
        ∀ len rest, read_raw_varint32 env.input = .ok (len, rest) → rest.length < len →
          (request decode env req).result = .error (.IoError .unexpectedEof)) := by
  refine ⟨?_, ?_, ?_, ?_, ?_, ?_⟩
  · intro h1 h2 h3 len rest hv hlen
    have hre : read_exact len rest = .ok (rest.take len, rest.drop len) := by
      simp [read_exact, hlen]
    refine ⟨?_, ?_, ?_, ?_⟩ <;>
      simp [request, h1, h2, h3, hv, hre, List.length_take, Nat.min_eq_left hlen]
  · intro e h1
    simp [request, h1]
  · intro h1 e h2
    simp [request, h1, h2]
  · intro h1 h2 e h3
    simp [request, h1, h2, h3]
  · intro h1 h2 h3 e hv
    simp [request, h1, h2, h3, hv]
  · intro h1 h2 h3 len rest hv hlen
    have hre : read_exact len rest = .error .unexpectedEof := by
      simp [read_exact]
      omega
    simp [request, h1, h2, h3, hv, hre]

/-- Witness for C1: a fully successful exchange at a concrete environment —
the peer sends the length prefix 3 followed by four bytes; the request
`[1, 2, 3]` goes out as `[3, 1, 2, 3]` and the first three payload bytes come
back decoded. -/
theorem request_exchange_witness :
    (request decodeId ⟨none, none, none, [3, 10, 20, 30, 99]⟩ [1, 2, 3]).written
        = varintEncode ([1, 2, 3] : List Byte).length ++ [1, 2, 3]
    ∧ (request decodeId ⟨none, none, none, [3, 10, 20, 30, 99]⟩ [1, 2, 3]).result
        = (decodeId (([10, 20, 30, 99] : List Byte).take 3)).mapError ProtobufError.WireError
    ∧ (request decodeId ⟨none, none, none, [3, 10, 20, 30, 99]⟩ [1, 2, 3]).trace
        = [.tryClone true, .writeFrame, .tryClone true, .readLen,
           .allocBuf 3, .readExactEv 3, .decodeResp]
    ∧ (([10, 20, 30, 99] : List Byte).take 3).length = 3 :=
  (request_exchange decodeId ⟨none, none, none, [3, 10, 20, 30, 99]⟩ [1, 2, 3]).1
    rfl rfl rfl 3 [10, 20, 30, 99] (by decide) (by decide)

/-- Claim C5: `request` distinguishes error kinds — a peer that sends a
length prefix but closes before the full payload arrives makes the call fail
with the I/O-error kind, while a full payload whose bytes do not decode makes
it fail with the decode (wire) kind; the two kinds are distinct. -/
theorem request_error_kinds {Resp : Type} (decode : List Byte → Except WireError Resp)
    (env : Env) (req : List Byte)
    (h1 : env.clone1 = none) (h2 : env.writeErr = none) (h3 : env.clone2 = none)
    (len : Nat) (rest : List Byte)
    (hv : read_raw_varint32 env.input = .ok (len, rest)) :
    (rest.length < len →
        (request decode env req).result = .error (.IoError .unexpectedEof))
    ∧ (∀ w, len ≤ rest.length → decode (rest.take len) = .error w →
        (request decode env req).result = .error (.WireError w))
    ∧ (∀ k w, (ProtobufError.IoError k : ProtobufError) ≠ .WireError w) := by
  refine ⟨?_, ?_, fun k w h => by cases h⟩
  · intro hlen
    have hre : read_exact len rest = .error .unexpectedEof := by
      simp [read_exact]
      omega
    simp [request, h1, h2, h3, hv, hre]
  · intro w hlen hw
    have hre : read_exact len rest = .ok (rest.take len, rest.drop len) := by
      simp [read_exact, hlen]
    simp [request, h1, h2, h3, hv, hre, hw, Except.mapError]

/-- Witness for C5: a peer announcing 5 bytes but sending 2 produces the
I/O-error kind; a peer sending a full 2-byte payload that the decoder rejects
produces the wire-error kind. -/
theorem request_error_kinds_witness :
    (request decodeId ⟨none, none, none, [5, 10, 20]⟩ []).result
        = .error (.IoError .unexpectedEof)
    ∧ (request decodeFail ⟨none, none, none, [2, 10, 20]⟩ []).result
        = .error (.WireError .incorrectTag) :=
  ⟨(request_error_kinds decodeId ⟨none, none, none, [5, 10, 20]⟩ []
      rfl rfl rfl 5 [10, 20] (by decide)).1 (by decide),
   (request_error_kinds decodeFail ⟨none, none, none, [2, 10, 20]⟩ []
      rfl rfl rfl 2 [10, 20] (by decide)).2.1 .incorrectTag (by decide) rfl⟩

/-- Claim C6 fails on the code: there is no oversized-length guard — when the
peer sends the length prefix `u32::MAX` (4294967295) and closes, `request`
still allocates a receive buffer of that peer-controlled size and only then
fails the exact read with an I/O error; no framing rejection happens before
the allocation. -/
theorem oversized_len_no_guard :
    (request decodeId ⟨none, none, none, [255, 255, 255, 255, 15]⟩ []).trace
        = [.tryClone true, .writeFrame, .tryClone true, .readLen,
           .allocBuf 4294967295, .readExactEv 4294967295]
    ∧ (request decodeId ⟨none, none, none, [255, 255, 255, 255, 15]⟩ []).result
        = .error (.IoError .unexpectedEof) := by
  decide

/-- Claim C8 fails as stated: a call whose length-delimited write fails
aborts before the second `try_clone`, so it creates only one transient clone
handle, not two. -/
theorem request_two_clones_counterexample :
    cloneSuccesses (request decodeId ⟨none, some .brokenPipe, none, []⟩ [1]).trace ≠ 2 := by
  decide

/-- Claim C8 amended: a call to `request` creates at most two transient
clone handles — exactly two on every call that reaches the length-prefix
read, in particular on every successful call — and the owned connection of
the `ServerConnection` is never replaced by `request`. -/
theorem request_clone_frame {σ Resp : Type} (decode : List Byte → Except WireError Resp)
    (conn : ServerConnection σ) (env : Env) (req : List Byte) :
    (requestConn decode conn env req).1 = conn
    ∧ cloneSuccesses (request decode env req).trace ≤ 2
    ∧ (env.clone1 = none → env.writeErr = none → env.clone2 = none →
        cloneSuccesses (request decode env req).trace = 2) := by
  refine ⟨rfl, ?_, ?_⟩
  · rcases hc1 : env.clone1 with _ | e1
    · rcases hc2 : env.writeErr with _ | e2
      · rcases hc3 : env.clone2 with _ | e3
        · rcases hv : read_raw_varint32 env.input with e | lr
          · simp [request, hc1, hc2, hc3, hv, cloneSuccesses, isCloneOk, List.filter]
          · rcases hre : read_exact lr.1 lr.2 with e | br <;>
              simp [request, hc1, hc2, hc3, hv, hre, cloneSuccesses, isCloneOk, List.filter]
        · simp [request, hc1, hc2, hc3, cloneSuccesses, isCloneOk, List.filter]
      · simp [request, hc1, hc2, cloneSuccesses, isCloneOk, List.filter]
    · simp [request, hc1, cloneSuccesses, isCloneOk, List.filter]
  · intro h1 h2 h3
    rcases hv : read_raw_varint32 env.input with e | lr
    · simp [request, h1, h2, h3, hv, cloneSuccesses, isCloneOk, List.filter]
    · rcases hre : read_exact lr.1 lr.2 with e | br <;>
        simp [request, h1, h2, h3, hv, hre, cloneSuccesses, isCloneOk, List.filter]

/-- Witness for the amended C8: a concrete successful call with an owned
connection state `0` — the state passes through unchanged and exactly two
clone handles are created. -/
theorem request_clone_frame_witness :
    (requestConn decodeId (⟨0⟩ : ServerConnection Nat) ⟨none, none, none, [0]⟩ []).1
        = (⟨0⟩ : ServerConnection Nat)
    ∧ cloneSuccesses (request decodeId ⟨none, none, none, [0]⟩ []).trace ≤ 2
    ∧ cloneSuccesses (request decodeId ⟨none, none, none, [0]⟩ []).trace = 2 :=
  ⟨(request_clone_frame decodeId ⟨0⟩ ⟨none, none, none, [0]⟩ []).1,
   (request_clone_frame decodeId (⟨0⟩ : ServerConnection Nat) ⟨none, none, none, [0]⟩ []).2.1,
   (request_clone_frame decodeId (⟨0⟩ : ServerConnection Nat) ⟨none, none, none, [0]⟩ []).2.2
     rfl rfl rfl⟩

/-- Unfolding the retry loop at an accepted attempt: it stops at once. -/
theorem retryLoop_accept {A : Type} (p : A → Bool) (f : Nat → A) (fuel i : Nat)
    (hok : p (f i) = true) : retryLoop p f (fuel + 1) i = ⟨1, 0, some (f i)⟩ := by
  simp [retryLoop, hok]

/-- Unfolding the retry loop at a rejected final attempt: it gives up. -/
theorem retryLoop_last {A : Type} (p : A → Bool) (f : Nat → A) (i : Nat)
    (hf : p (f i) = false) : retryLoop p f 1 i = ⟨1, 0, none⟩ := by
  simp [retryLoop, hf]

/-- Unfolding the retry loop at a rejected attempt with tries remaining: one
sleep, then the loop continues at the next index. -/
theorem retryLoop_step {A : Type} (p : A → Bool) (f : Nat → A) (fuel i : Nat)
    (hf : p (f i) = false) (hz : fuel ≠ 0) :
    retryLoop p f (fuel + 1) i =
      ⟨(retryLoop p f fuel (i + 1)).attempts + 1,
        (retryLoop p f fuel (i + 1)).sleeps + 1,
        (retryLoop p f fuel (i + 1)).value⟩ := by
  simp [retryLoop, hf, hz]

/-- If the attempts at offsets `0, …, j-1` from `i` are rejected by the
predicate and the one at offset `j` is accepted, the retry loop stops at
that value after `j + 1` attempts and `j` sleeps. -/
theorem retryLoop_first_success {A : Type} (p : A → Bool) (f : Nat → A) :
    ∀ fuel i j, j < fuel → (∀ k, k < j → p (f (i + k)) = false) →
      p (f (i + j)) = true → retryLoop p f fuel i = ⟨j + 1, j, some (f (i + j))⟩ := by
  intro fuel
  induction fuel with
  | zero => intro i j hj; omega
  | succ fuel ih =>
    intro i j hj hfail hok
    cases j with
    | zero =>
      simp only [Nat.add_zero] at hok ⊢
      exact retryLoop_accept p f fuel i hok
    | succ j' =>
      have he : p (f i) = false := by simpa using hfail 0 (Nat.succ_pos j')
      have hz : fuel ≠ 0 := by omega
      have hrec : retryLoop p f fuel (i + 1) = ⟨j' + 1, j', some (f (i + 1 + j'))⟩ := by
        refine ih (i + 1) j' (by omega) ?_ ?_
        · intro k hk
          have h := hfail (k + 1) (by omega)
          rw [← h]; ring_nf
        · rw [← hok]; ring_nf
      have harg : i + 1 + j' = i + (j' + 1) := by ring
      rw [retryLoop_step p f fuel i he hz, hrec, harg]

/-- If the predicate rejects every attempt in the budget, the retry loop
exhausts it: `fuel` attempts, `fuel - 1` sleeps, no accepted value. -/
theorem retryLoop_all_fail {A : Type} (p : A → Bool) (f : Nat → A) :
    ∀ fuel i, 1 ≤ fuel → (∀ k, k < fuel → p (f (i + k)) = false) →
      retryLoop p f fuel i = ⟨fuel, fuel - 1, none⟩ := by
  intro fuel
  induction fuel with
  | zero => intro i h; omega
  | succ fuel ih =>
    intro i _ hfail
    have he : p (f i) = false := by simpa using hfail 0 (Nat.succ_pos fuel)
    cases fuel with
    | zero => exact retryLoop_last p f i he
    | succ fuel' =>
      have hrec : retryLoop p f (fuel' + 1) (i + 1) = ⟨fuel' + 1, fuel', none⟩ := by
        have h := ih (i + 1) (by omega) ?_
        · simpa using h
        · intro k hk
          have h := hfail (k + 1) (by omega)
          rw [← h]; ring_nf
      rw [retryLoop_step p f (fuel' + 1) i he (Nat.succ_ne_zero fuel'), hrec]
      simp

/-- Claim C7: `connect_with_retry` retries sequentially up to 10 attempts
with a fixed 1-time-unit delay between attempts, returns the connection of
the first successful attempt as soon as one succeeds (after `j` sleeps when
the first `j` attempts failed), and when every attempt fails it fails with
the single dedicated timed-out error after 10 attempts and 9 sleeps, the
per-attempt I/O errors not being surfaced. -/
theorem connect_with_retry_policy {A : Type} (f : Nat → Except IoErrorKind A) :
    (∀ j a, j < retryTries → (∀ k, k < j → ∃ e, f k = .error e) → f j = .ok a →
        connect_with_retry f = (⟨j + 1, j, some (.ok a)⟩, .ok a))
    ∧ ((∀ k, k < retryTries → ∃ e, f k = .error e) →
        connect_with_retry f = (⟨retryTries, retryTries - 1, none⟩, .error .timedOut))
    ∧ retryTries = 10 ∧ retryDelay = 1 := by
  refine ⟨?_, ?_, rfl, rfl⟩
  · intro j a hj hfail hok
    have h := retryLoop_first_success Except.isOk f retryTries 0 j hj
      (by
        intro k hk
        obtain ⟨e, he⟩ := hfail k hk
        simp [he, Except.isOk, Except.toBool])
      (by simp [hok, Except.isOk, Except.toBool])
    simp only [Nat.zero_add] at h
    simp [connect_with_retry, h, hok]
  · intro hfail
    have h := retryLoop_all_fail Except.isOk f retryTries 0 (by decide)
      (by
        intro k hk
        obtain ⟨e, he⟩ := hfail k (by simpa using hk)
        simp [he, Except.isOk, Except.toBool])
    simp [connect_with_retry, h]

/-- Witness for C7: the oracle that fails three times and then succeeds
yields the connection after 4 attempts and 3 sleeps; the oracle that always
fails with connection-refused yields the timed-out error after 10 attempts
and 9 sleeps. -/
theorem connect_with_retry_policy_witness :
    connect_with_retry fOk = (⟨4, 3, some (.ok 42)⟩, .ok 42)
    ∧ connect_with_retry fBad = (⟨10, 9, none⟩, .error .timedOut) :=
  ⟨(connect_with_retry_policy fOk).1 3 42 (by decide)
      (fun k hk => ⟨.connectionRefused, by simp [fOk, hk]⟩) (by decide),
   by
     have h := (connect_with_retry_policy fBad).2.1
       (fun k _ => ⟨.connectionRefused, rfl⟩)
     simpa [retryTries] using h⟩

/-- Claim C9: each `Acceptor` implementation maps the native accept
primitive to the matching connection kind and discards the secondary
peer-address value — on success it yields exactly the accepted socket, and a
native failure propagates unchanged, for both the TCP and the Unix
listener. -/
theorem accept_discards_peer {S P : Type} (native : Except IoErrorKind (S × P)) :
    (∀ s p, native = .ok (s, p) →
        tcpAccept native = .ok s ∧ unixAccept native = .ok s)
    ∧ (∀ e, native = .error e →
        tcpAccept native = .error e ∧ unixAccept native = .error e) := by
  refine ⟨?_, ?_⟩
  · intro s p h
    subst h
    exact ⟨rfl, rfl⟩
  · intro e h
    subst h
    exact ⟨rfl, rfl⟩

/-- Witness for C9: at the concrete native outcomes `.ok (7, 9)` and
`.error brokenPipe`, both accept implementations keep exactly the socket and
propagate the error. -/
theorem accept_discards_peer_witness :
    (tcpAccept (.ok ((7 : Nat), (9 : Nat))) = .ok 7
      ∧ unixAccept (.ok ((7 : Nat), (9 : Nat))) = .ok 7)
    ∧ (tcpAccept (Except.error .brokenPipe : Except IoErrorKind (Nat × Nat))
          = .error .brokenPipe
      ∧ unixAccept (Except.error .brokenPipe : Except IoErrorKind (Nat × Nat))
          = .error .brokenPipe) :=
  ⟨(accept_discards_peer (.ok ((7 : Nat), (9 : Nat)))).1 7 9 rfl,
   (accept_discards_peer (Except.error .brokenPipe : Except IoErrorKind (Nat × Nat))).2
     .brokenPipe rfl⟩

/-- Claim C10: `local_addr` of the Unix listener returns the path-domain
variant holding the empty path for an unnamed bound address — succeeding
rather than failing — and the variant of the matching kind whenever a
pathname or an abstract name is present. -/
theorem unix_local_addr_cases :
    unixLocalAddr (.ok .unnamed) = .ok (.Unix [])
    ∧ (∀ p, unixLocalAddr (.ok (.pathname p)) = .ok (.Unix p))
    ∧ (∀ n, unixLocalAddr (.ok (.abstractName n)) = .ok (.UnixAbstract n)) :=
  ⟨rfl, fun _ => rfl, fun _ => rfl⟩

end Sccache
